import Mathlib

/- Shallow embedding of the Poisson significance engine of
   lib/analysis/modules/Mapper.py.

   Event times, rates and window bounds are rational numbers (all inputs of
   interest are machine decimals); probability values live in ℝ because the
   Poisson CDF involves exp.  scipy.stats.poisson(mu).cdf(n) is embedded by
   its closed form exp(-mu) * Σ_{j ≤ n} mu^j / j!.  scipy returns NaN for
   mu < 0; the closed form extends it, and every statement below that touches
   mu < 0 is about control flow, never about that extended value. -/

/-- Partial sum Σ_{j=0}^{n} μ^j / j! of the Poisson series, exact in ℚ. -/
def poissonSum (n : ℕ) (μ : ℚ) : ℚ :=
  ∑ j ∈ Finset.range (n + 1), μ ^ j / (Nat.factorial j : ℚ)

/-- Embedding of `scipy.stats.poisson(μ).cdf(n)`: P(X ≤ n) for X ~ Poisson(μ). -/
noncomputable def poissonCdf (n : ℕ) (μ : ℚ) : ℝ :=
  Real.exp (-(μ : ℝ)) * (poissonSum n μ : ℝ)

/-- Embedding of the FIRST `poissonProb(events, xvals, rate,
    correctForSelection=False)` (Mapper.py line 121, the spec's
    windowedExceedanceProbability).  The source iterates
    `for i in range(len(xvals))` and appends `poisson(rate*(x+e)).cdf(i+1)`;
    note that, exactly like the source, the `events` argument is never used:
    the CDF argument is the 1-based index into `xvals`, not an event count.
    Returned is `1 - y` elementwise. -/
noncomputable def poissonProbList (events xvals : List ℚ) (rate : ℚ)
    (correctForSelection : Bool) : List ℝ :=
  (List.range xvals.length).map fun i =>
    let x := xvals.getD i 0
    let e : ℚ := if correctForSelection then 1 / rate else 0
    1 - poissonCdf (i + 1) (rate * (x + e))

/-- Minimum of a list of reals, `numpy.ndarray.min` on a nonempty array.
    The `[]` case is arbitrary (numpy raises on an empty array); every use
    below is guarded by a length check, as in the source. -/
noncomputable def listMin : List ℝ → ℝ
  | [] => 0
  | x :: xs => xs.foldl min x

/-- Embedding of `poissonScore(events, rate)` (Mapper.py line 145) with the
    FIRST `poissonProb` definition (the binding the function was written
    against; the later rebinding of the name is modeled separately).
    `(1.0 / pp.min()) ** 1.0` is `1.0 / pp.min()`, and `rate ** 0.5` is
    `Real.sqrt rate` for the nonnegative rates this embedding is used at. -/
noncomputable def poissonScore (events : List ℚ) (rate : ℚ) : ℝ :=
  if (poissonProbList events events rate true).length = 0 then 1
  else (1 / listMin (poissonProbList events events rate true)) / Real.sqrt (rate : ℝ)

/-- Embedding of the SECOND `poissonProb(n, t, l)` (Mapper.py line 266, the
    spec's probabilityOfAtLeastN): `stats.poisson(l*t).cdf(n-1)`.  For n = 0
    scipy's `cdf(-1)` is 0, which the ℕ-subtraction would miss, hence the
    guard. -/
noncomputable def poissonProb2 (n : ℕ) (t l : ℚ) : ℝ :=
  if n = 0 then 0 else poissonCdf (n - 1) (l * t)

/-- Python `int()` on a rational: truncation toward zero. -/
def pyInt (q : ℚ) : ℤ :=
  if 0 ≤ q then ⌊q⌋ else ⌈q⌉

/-- The global `poissonIntCache`: event count ↦ optional probability curve,
    a curve being the 1000-point array modeled as a function from the grid
    index. -/
abbrev PICache := ℕ → Option (ℕ → ℝ)

/-- The empty cache. -/
def emptyCache : PICache := fun _ => none

/-- The event walk of `poissonIntegral` (Mapper.py lines 181-196): state is
    (remaining events, t, nev, tot, cache).  Slices `[i1:i2]` of the
    1000-point curve are summed over `Finset.Ico i1 (min i2 1000)`; negative
    Python indices cannot occur on the paths analyzed here (t ≥ tMin and the
    processed event is ≥ tMin whenever the slice is taken). -/
noncomputable def piLoop (rate tMin tMax dt : ℚ) (xq : ℕ → ℚ) :
    List ℚ → ℚ → ℕ → ℝ → PICache → ℝ × PICache
  | [], _, _, tot, cache => (tot, cache)
  | ev :: rest, t, nev, tot, cache =>
    if ev < tMin then piLoop rate tMin tMax dt xq rest t nev tot cache
    else
      let ev2 := if tMax < ev then tMax else ev
      let i1 := (pyInt ((t - tMin) / dt)).toNat
      let i2 := (pyInt ((ev2 - tMin) / dt)).toNat
      let curve : ℕ → ℝ :=
        match cache nev with
        | some c => c
        | none => fun k => 1 - poissonCdf nev (rate * xq k)
      let cache2 : PICache :=
        match cache nev with
        | some _ => cache
        | none => fun m => if m = nev then some (fun k => 1 - poissonCdf nev (rate * xq k)) else cache m
      let tot2 := tot + ∑ k ∈ Finset.Ico i1 (min i2 1000), 1 / curve k
      if ev2 = tMax then (tot2, cache2)
      else piLoop rate tMin tMax dt xq rest ev2 (nev + 1) tot2 cache2

/-- Embedding of `poissonIntegral(events, rate, tMin, tMax)` (Mapper.py line
    169) with the global cache passed and returned explicitly.  The grid is
    `numpy.linspace(tMin, tMax, 1000)`, so `xq k = tMin + k*(tMax-tMin)/999`
    and `dt = (tMax-tMin)/999`; the events are sorted and `tMax` appended as
    the sentinel. -/
noncomputable def poissonIntegral (events : List ℚ) (rate tMin tMax : ℚ)
    (cache : PICache) : ℝ × PICache :=
  let dt : ℚ := (tMax - tMin) / 999
  let xq : ℕ → ℚ := fun k => tMin + k * dt
  let r := piLoop rate tMin tMax dt xq (events.mergeSort (· ≤ ·) ++ [tMax]) tMin 0 0 cache
  (r.1 * (dt : ℝ), r.2)

/-- IEEE-style value domain for the blame computations: numpy float results
    that may be ±inf or NaN. -/
inductive PyFloat where
  | val : ℝ → PyFloat
  | inf : PyFloat
  | ninf : PyFloat
  | nan : PyFloat

/-- numpy float division, including the silent 1/0 = inf, 0/0 = nan and
    inf/inf = nan behavior that the source's `assert` is guarding against. -/
noncomputable def pyDiv : PyFloat → PyFloat → PyFloat
  | .val x, .val y =>
      if y = 0 then (if x = 0 then .nan else if 0 < x then .inf else .ninf)
      else .val (x / y)
  | .val _, .inf => .val 0
  | .val _, .ninf => .val 0
  | .inf, .val y => if 0 ≤ y then .inf else .ninf
  | .ninf, .val y => if 0 ≤ y then .ninf else .inf
  | .inf, .inf => .nan
  | .inf, .ninf => .nan
  | .ninf, .inf => .nan
  | .ninf, .ninf => .nan
  | .nan, _ => .nan
  | _, .nan => .nan

/-- numpy two-argument max with NaN propagation. -/
noncomputable def pyMax2 : PyFloat → PyFloat → PyFloat
  | .nan, _ => .nan
  | _, .nan => .nan
  | .inf, _ => .inf
  | _, .inf => .inf
  | .ninf, b => b
  | a, .ninf => a
  | .val x, .val y => .val (max x y)

/-- Embedding of `numpy.ndarray.max()` on a nonempty array (NaN-propagating);
    the `[]` case is arbitrary (numpy raises), and unreachable in the uses
    below. -/
noncomputable def pyMaxList : List PyFloat → PyFloat
  | [] => .nan
  | x :: xs => xs.foldl pyMax2 x

/-- Embedding of `numpy.isnan`. -/
def isNan : PyFloat → Bool
  | .nan => true
  | _ => false

/-- Python exceptions raised on the paths analyzed here. -/
inductive PyError where
  | typeError
  | assertionError
  | valueError
deriving DecidableEq

/-- The per-event entries computed by `poissonScoreBlame` (Mapper.py lines
    209-215) before the assert: for each index i, elementwise
    `(1./poissonProb(ev, ev[i:], rate)) / (1./poissonProb(ev2, ev[i:], rate))`
    followed by `.max()`, with `ev2 = ev` minus element i.  The calls use the
    first `poissonProb` (see `poissonScore`) with `correctForSelection`
    defaulted to False. -/
noncomputable def poissonScoreBlameRaw (ev : List ℚ) (rate : ℚ) : List PyFloat :=
  (List.range ev.length).map fun i =>
    let ev2 := ev.take i ++ ev.drop (i + 1)
    let pp1 := (poissonProbList ev (ev.drop i) rate false).map fun p => pyDiv (.val 1) (.val p)
    let pp2 := (poissonProbList ev2 (ev.drop i) rate false).map fun p => pyDiv (.val 1) (.val p)
    pyMaxList (List.zipWith pyDiv pp1 pp2)

/-- Embedding of `poissonScoreBlame(ev, rate)` (Mapper.py line 204): empty
    input returns `[]` before any assert; otherwise
    `assert not any(np.isnan(pp))` guards the return. -/
noncomputable def poissonScoreBlame (ev : List ℚ) (rate : ℚ) :
    Except PyError (List PyFloat) :=
  if ev.length = 0 then .ok []
  else if (poissonScoreBlameRaw ev rate).any (fun x => isNan x) then .error .assertionError
  else .ok (poissonScoreBlameRaw ev rate)

/-- The loop of `poissonIntegralBlame` (Mapper.py lines 223-228): for each
    index, the ratio of the full integral to the leave-one-out integral, with
    the global cache threaded through the successive `poissonIntegral`
    calls. -/
noncomputable def pibLoop (ev : List ℚ) (rate xMin xMax : ℚ) :
    List ℕ → PICache → List PyFloat × PICache
  | [], cache => ([], cache)
  | i :: rest, cache =>
    let ev2 := ev.take i ++ ev.drop (i + 1)
    let r1 := poissonIntegral ev rate xMin xMax cache
    let r2 := poissonIntegral ev2 rate xMin xMax r1.2
    let rr := pibLoop ev rate xMin xMax rest r2.2
    (pyDiv (.val r1.1) (.val r2.1) :: rr.1, rr.2)

/-- Embedding of `poissonIntegralBlame(ev, rate, xMin, xMax)` (Mapper.py line
    220): the computed ratio list, guarded by `assert not any(np.isnan(pp))`. -/
noncomputable def poissonIntegralBlame (ev : List ℚ) (rate xMin xMax : ℚ)
    (cache : PICache) : Except PyError (List PyFloat) :=
  if (pibLoop ev rate xMin xMax (List.range ev.length) cache).1.any (fun x => isNan x) then
    .error .assertionError
  else .ok (pibLoop ev rate xMin xMax (List.range ev.length) cache).1

/-- Python call-argument binding against a `def` with parameter list `params`
    and no defaults: `nPos` positional arguments plus keyword arguments named
    `kwargs`.  TypeError when there are too many positional arguments, an
    unexpected keyword, a keyword rebinding a positionally-filled parameter,
    or a missing parameter. -/
def bindCall (params : List String) (nPos : ℕ) (kwargs : List String) :
    Except PyError Unit :=
  if params.length < nPos then .error .typeError
  else if kwargs.any (fun k => ¬ (k ∈ params)) then .error .typeError
  else if kwargs.any (fun k => k ∈ params.take nPos) then .error .typeError
  else if (params.drop nPos).any (fun p => ¬ (p ∈ kwargs)) then .error .typeError
  else .ok ()

/-- Parameter list of the SECOND `def poissonProb(n, t, l)` (Mapper.py line
    266), which is the binding of the module-level name `poissonProb` after
    all top-level definitions have executed. -/
def poissonProbFinalParams : List String := ["n", "t", "l"]

/-- Python-level type of a value flowing into the rebound `poissonProb`:
    a float scalar, a numpy array (the module passes `ev['time']`, and the
    slice `ev[i:]` stays an array), or a plain Python list
    (`ev2 = list(ev)` at line 210 always is one). -/
inductive PyObj where
  | scalar : ℚ → PyObj
  | ndarray : List ℚ → PyObj
  | pylist : List ℚ → PyObj

/-- Python `n - 1` at these types: scalars and numpy arrays subtract
    (elementwise); a Python list does not support `- int` and raises
    TypeError. -/
def pySubOne : PyObj → Except PyError PyObj
  | .scalar x => .ok (.scalar (x - 1))
  | .ndarray xs => .ok (.ndarray (xs.map (fun x => x - 1)))
  | .pylist _ => .error .typeError

/-- Python `l * t` with a float `l`: scalars and numpy arrays multiply
    (elementwise); a float times a Python list raises TypeError. -/
def pyScale (l : ℚ) : PyObj → Except PyError PyObj
  | .scalar x => .ok (.scalar (l * x))
  | .ndarray xs => .ok (.ndarray (xs.map (fun x => l * x)))
  | .pylist _ => .error .typeError

/-- Broadcasting of `stats.poisson(mu).cdf(k)` over the shapes that survive
    pyScale/pySubOne: 1-d arrays broadcast when the lengths agree or either
    has length 1, otherwise ValueError; a scalar broadcasts with anything.
    (Only the error behavior matters here; the scalar numeric semantics of
    the rebound body is poissonProb2.) -/
def cdfBroadcast : PyObj → PyObj → Except PyError Unit
  | .ndarray mu, .ndarray k =>
      if mu.length = k.length ∨ mu.length = 1 ∨ k.length = 1 then .ok ()
      else .error .valueError
  | _, _ => .ok ()

/-- A dynamic call to the rebound `poissonProb(n, t, l)` (Mapper.py line
    266): the argument binding first, then the body
    `stats.poisson(l*t).cdf(n-1)` in Python evaluation order — `l*t`, then
    `n - 1`, then the broadcast of the cdf. -/
def poissonProbFinalCall (n t : PyObj) (l : ℚ) (kwargs : List String) :
    Except PyError Unit :=
  match bindCall poissonProbFinalParams 3 kwargs with
  | .error e => .error e
  | .ok _ =>
    match pyScale l t with
    | .error e => .error e
    | .ok mu =>
      match pySubOne n with
      | .error e => .error e
      | .ok k => cdfBroadcast mu k

/-- The dynamic call `poissonProb(events, events, rate,
    correctForSelection=True)` made by `poissonScore` at line 153 against
    the final binding of the name: the binding step already fails on the
    unexpected keyword, before the body runs, for any argument values. -/
def poissonScoreDyn (events : List ℚ) (rate : ℚ) : Except PyError Unit :=
  poissonProbFinalCall (.ndarray events) (.ndarray events) rate
    ["correctForSelection"]

/-- The loop of `poissonScoreBlame` (Mapper.py lines 209-215) with its two
    calls `poissonProb(ev, ev[i:], rate)` and `poissonProb(ev2, ev[i:], rate)`
    resolved against the final binding of the name: `ev` is the numpy array
    the module passes (`ev['time']`), `ev[i:]` a numpy slice, and `ev2`,
    built by `list(ev)` then `.pop(i)`, a Python list.  The first exception
    aborts; the iteration's remaining arithmetic (`1./x`, `(pp1/pp2).max()`)
    runs only when both calls return, which never happens on a non-empty
    sequence. -/
def poissonScoreBlameDynLoop (ev : List ℚ) (rate : ℚ) :
    List ℕ → Except PyError Unit
  | [] => .ok ()
  | i :: rest =>
    match poissonProbFinalCall (.ndarray ev) (.ndarray (ev.drop i)) rate [] with
    | .error e => .error e
    | .ok _ =>
      match poissonProbFinalCall (.pylist (ev.take i ++ ev.drop (i + 1)))
          (.ndarray (ev.drop i)) rate [] with
      | .error e => .error e
      | .ok _ => poissonScoreBlameDynLoop ev rate rest

/-- `poissonScoreBlame` after the module's top-level definitions have
    executed: the empty sequence returns `[]` before any `poissonProb` call
    (line 206); otherwise the loop above runs. -/
def poissonScoreBlameDyn (ev : List ℚ) (rate : ℚ) : Except PyError Unit :=
  if ev.length = 0 then .ok ()
  else poissonScoreBlameDynLoop ev rate (List.range ev.length)

/-- Modelled from claim C1's wording: score with p_min the minimum over
    1-indexed prefixes i of the selection-corrected probability that i or
    MORE events occur in [0, t_i], i.e. `1 - cdf(i-1; rate*(t_i + 1/rate))`
    (0-based index j = i-1 gives `1 - cdf(j; ...)`). -/
noncomputable def poissonScoreSpecC1 (events : List ℚ) (rate : ℚ) : ℝ :=
  if events.length = 0 then 1
  else
    (1 / listMin ((List.range events.length).map fun j =>
      1 - poissonCdf j (rate * (events.getD j 0 + 1 / rate)))) / Real.sqrt (rate : ℝ)

/-- The amended C1 score: p_min is the minimum, over 1-indexed prefixes i, of
    the selection-corrected probability that MORE than i events occur in
    [0, t_i], i.e. `1 - cdf(i; rate*(t_i + 1/rate))` (0-based index j gives
    `1 - cdf(j+1; ...)`), stated over `Finset.inf'` rather than the list
    fold used by the code. -/
noncomputable def poissonScoreSpecAmended (events : List ℚ) (rate : ℚ) : ℝ :=
  if h : events.length = 0 then 1
  else
    (1 / (Finset.range events.length).inf' (Finset.nonempty_range_iff.mpr h)
      (fun j => 1 - poissonCdf (j + 1) (rate * (events.getD j 0 + 1 / rate))))
      / Real.sqrt (rate : ℝ)

/-- Number of events at or before time x. -/
def countAtOrBefore (events : List ℚ) (x : ℚ) : ℕ :=
  (events.filter (fun t => decide (t ≤ x))).length

/-- Modelled from claim C2's wording: for each candidate window end x, the
    value `1 - CDF(c; rate*(x+e))` where c is the number of events of the
    sequence at or before x and e is the selection correction. -/
noncomputable def poissonProbSpecC2 (events xvals : List ℚ) (rate : ℚ)
    (correctForSelection : Bool) : List ℝ :=
  xvals.map fun x =>
    let e : ℚ := if correctForSelection then 1 / rate else 0
    1 - poissonCdf (countAtOrBefore events x) (rate * (x + e))

/-- The lower bound 2.7 < e. -/
lemma exp_one_gt_27 : (27 / 10 : ℝ) < Real.exp 1 :=
  lt_trans (by norm_num) Real.exp_one_gt_d9

/-- The upper bound e < 2.72. -/
lemma exp_one_lt_272 : Real.exp 1 < (68 / 25 : ℝ) :=
  lt_trans Real.exp_one_lt_d9 (by norm_num)

/-- Lower bound on exp at the rational point n/k from a k-th power
    comparison against 2.7^n. -/
lemma exp_div_gt (n k : ℕ) (c : ℝ) (hk : 0 < k)
    (h : c ^ k < ((27 : ℝ) / 10) ^ n) : c < Real.exp ((n : ℝ) / k) := by
  have h1 : Real.exp ((n : ℝ) / k) ^ k = Real.exp (n : ℝ) := by
    rw [← Real.exp_nat_mul]
    congr 1
    field_simp
  have h2 : Real.exp (n : ℝ) = Real.exp 1 ^ n := by
    rw [← Real.exp_nat_mul, mul_one]
  have h3 : ((27 : ℝ) / 10) ^ n ≤ Real.exp 1 ^ n :=
    pow_le_pow_left (by norm_num) exp_one_gt_27.le n
  have h4 : c ^ k < Real.exp ((n : ℝ) / k) ^ k := by
    rw [h1, h2]; exact lt_of_lt_of_le h h3
  exact lt_of_pow_lt_pow_left k (Real.exp_pos _).le h4

/-- Upper bound on exp at the rational point n/k from a k-th power
    comparison against 2.72^n. -/
lemma exp_div_lt (n k : ℕ) (c : ℝ) (hk : 0 < k) (hc : 0 ≤ c)
    (h : ((68 : ℝ) / 25) ^ n < c ^ k) : Real.exp ((n : ℝ) / k) < c := by
  have h1 : Real.exp ((n : ℝ) / k) ^ k = Real.exp (n : ℝ) := by
    rw [← Real.exp_nat_mul]
    congr 1
    field_simp
  have h2 : Real.exp (n : ℝ) = Real.exp 1 ^ n := by
    rw [← Real.exp_nat_mul, mul_one]
  have h3 : Real.exp 1 ^ n ≤ ((68 : ℝ) / 25) ^ n :=
    pow_le_pow_left (Real.exp_pos 1).le exp_one_lt_272.le n
  have h4 : Real.exp ((n : ℝ) / k) ^ k < c ^ k := by
    rw [h1, h2]; exact lt_of_le_of_lt h3 h
  exact lt_of_pow_lt_pow_left k hc h4

/-- A Poisson tail 1 - cdf is positive as soon as the partial sum is below
    exp μ. -/
lemma one_sub_poissonCdf_pos (n : ℕ) (μ : ℚ)
    (h : (poissonSum n μ : ℝ) < Real.exp (μ : ℝ)) : 0 < 1 - poissonCdf n μ := by
  unfold poissonCdf
  have he : (0 : ℝ) < Real.exp (-(μ : ℝ)) := Real.exp_pos _
  have h2 : Real.exp (-(μ : ℝ)) * (poissonSum n μ : ℝ)
      < Real.exp (-(μ : ℝ)) * Real.exp (μ : ℝ) := mul_lt_mul_of_pos_left h he
  rw [← Real.exp_add, neg_add_cancel, Real.exp_zero] at h2
  linarith

/-- Strict comparison of two Poisson CDF values from the cross-multiplied
    partial-sum inequality. -/
lemma poissonCdf_lt (n₁ n₂ : ℕ) (μ₁ μ₂ : ℚ)
    (h : Real.exp ((μ₂ : ℝ) - (μ₁ : ℝ)) * (poissonSum n₁ μ₁ : ℝ)
        < (poissonSum n₂ μ₂ : ℝ)) :
    poissonCdf n₁ μ₁ < poissonCdf n₂ μ₂ := by
  unfold poissonCdf
  have key : Real.exp (-(μ₁ : ℝ)) = Real.exp (-(μ₂ : ℝ)) * Real.exp ((μ₂ : ℝ) - μ₁) := by
    rw [← Real.exp_add]
    ring_nf
  rw [key, mul_assoc]
  exact mul_lt_mul_of_pos_left h (Real.exp_pos _)

/-- Minimum of a list with one appended element. -/
lemma listMin_concat (l : List ℝ) (a : ℝ) (h : l ≠ []) :
    listMin (l ++ [a]) = min (listMin l) a := by
  cases l with
  | nil => exact absurd rfl h
  | cons x xs => simp [listMin, List.foldl_append]

/-- The code's fold-min over `(List.range n).map f` is the lattice min over
    `Finset.range n`. -/
lemma listMin_range_map (f : ℕ → ℝ) :
    ∀ n : ℕ, (hn : n ≠ 0) →
      listMin ((List.range n).map f)
        = (Finset.range n).inf' (Finset.nonempty_range_iff.mpr hn) f := by
  intro n
  induction n with
  | zero => intro hn; exact absurd rfl hn
  | succ m ih =>
    intro _
    rcases Nat.eq_zero_or_pos m with hm | hm
    · subst hm
      simp [listMin, List.range_succ]
    · have hm' : m ≠ 0 := Nat.pos_iff_ne_zero.mp hm
      have hne : (List.range m).map f ≠ [] := by
        intro hcon
        have hlen := congrArg List.length hcon
        simp at hlen
        exact hm' hlen
      rw [List.range_succ, List.map_append, List.map_singleton,
        listMin_concat _ _ hne, ih hm']
      simp only [Finset.range_succ, inf_eq_min, min_comm]
      exact (Finset.inf'_insert (Finset.nonempty_range_iff.mpr hm') f).symm

/-- Upper bound on exp at a negative point from a lower bound at its
    negation. -/
lemma exp_neg_lt (x c : ℝ) (hc : 0 < c) (h : c⁻¹ < Real.exp x) :
    Real.exp (-x) < c := by
  have h2 := inv_lt_inv_of_lt (inv_pos.mpr hc) h
  rw [inv_inv] at h2
  rw [Real.exp_neg]
  exact h2

/-- Claim C4, counterexample: with n = 3, rate = 5 the code's
    probabilityOfAtLeastN (the second `poissonProb`, which returns
    `cdf(n-1; rate*t)`) is NOT non-decreasing in t: it strictly drops from
    t = 0 to t = 1/10. -/
theorem c4_cex : ¬ (poissonProb2 3 0 5 ≤ poissonProb2 3 (1/10) 5) := by
  rw [not_le]
  have e0 : poissonProb2 3 0 5 = 1 := by
    have hs : poissonSum 2 (5 * 0) = 1 := by
      norm_num [poissonSum, Finset.sum_range_succ, Nat.factorial]
    simp only [poissonProb2, poissonCdf, hs]
    norm_num
  have e1 : poissonProb2 3 (1/10) 5 = Real.exp (-(1/2 : ℝ)) * (13/8 : ℝ) := by
    have hs : poissonSum 2 (5 * (1/10)) = 13/8 := by
      norm_num [poissonSum, Finset.sum_range_succ, Nat.factorial]
    simp only [poissonProb2, poissonCdf, hs]
    norm_num
  have hb : Real.exp (-(1/2 : ℝ)) < 8/13 := by
    apply exp_neg_lt _ _ (by norm_num)
    have h := exp_div_gt 1 2 (13/8) (by norm_num) (by norm_num)
    have hcast : ((1 : ℕ) : ℝ) / (2 : ℕ) = (1/2 : ℝ) := by norm_num
    rw [hcast] at h
    rw [show ((8:ℝ)/13)⁻¹ = 13/8 by norm_num]
    exact h
  rw [e0, e1]
  linarith

/-- Claim C4, amended: with n = 3, rate = 5 the code's probabilityOfAtLeastN
    (`cdf(n-1; rate*t)`) is non-INCREASING in t over t ∈ {0, 1/10, 1, 10}. -/
theorem c4_thm :
    poissonProb2 3 (1/10) 5 ≤ poissonProb2 3 0 5
      ∧ poissonProb2 3 1 5 ≤ poissonProb2 3 (1/10) 5
      ∧ poissonProb2 3 10 5 ≤ poissonProb2 3 1 5 := by
  have e0 : poissonProb2 3 0 5 = 1 := by
    have hs : poissonSum 2 (5 * 0) = 1 := by
      norm_num [poissonSum, Finset.sum_range_succ, Nat.factorial]
    simp only [poissonProb2, poissonCdf, hs]
    norm_num
  have e1 : poissonProb2 3 (1/10) 5 = Real.exp (-(1/2 : ℝ)) * (13/8 : ℝ) := by
    have hs : poissonSum 2 (5 * (1/10)) = 13/8 := by
      norm_num [poissonSum, Finset.sum_range_succ, Nat.factorial]
    simp only [poissonProb2, poissonCdf, hs]
    norm_num
  have e2 : poissonProb2 3 1 5 = Real.exp (-(5 : ℝ)) * (37/2 : ℝ) := by
    have hs : poissonSum 2 (5 * 1) = 37/2 := by
      norm_num [poissonSum, Finset.sum_range_succ, Nat.factorial]
    simp only [poissonProb2, poissonCdf, hs]
    norm_num
  have e3 : poissonProb2 3 10 5 = Real.exp (-(50 : ℝ)) * (1301 : ℝ) := by
    have hs : poissonSum 2 (5 * 10) = 1301 := by
      norm_num [poissonSum, Finset.sum_range_succ, Nat.factorial]
    simp only [poissonProb2, poissonCdf, hs]
    norm_num
  refine ⟨?_, ?_, ?_⟩
  · have hb : Real.exp (-(1/2 : ℝ)) < 8/13 := by
      apply exp_neg_lt _ _ (by norm_num)
      have h := exp_div_gt 1 2 (13/8) (by norm_num) (by norm_num)
      rw [show ((1:ℕ):ℝ) / ((2:ℕ):ℝ) = (1/2 : ℝ) by norm_num] at h
      rw [show ((8:ℝ)/13)⁻¹ = 13/8 by norm_num]
      exact h
    rw [e0, e1]
    linarith
  · have hb2 : Real.exp (-(9/2 : ℝ)) < 13/148 := by
      apply exp_neg_lt _ _ (by norm_num)
      have h := exp_div_gt 9 2 (148/13) (by norm_num) (by norm_num)
      rw [show ((9:ℕ):ℝ) / ((2:ℕ):ℝ) = (9/2 : ℝ) by norm_num] at h
      rw [show ((13:ℝ)/148)⁻¹ = 148/13 by norm_num]
      exact h
    have hsplit : Real.exp (-(5 : ℝ)) = Real.exp (-(1/2 : ℝ)) * Real.exp (-(9/2 : ℝ)) := by
      rw [← Real.exp_add]
      norm_num
    have hpos := Real.exp_pos (-(1/2 : ℝ))
    rw [e1, e2, hsplit]
    nlinarith [mul_lt_mul_of_pos_left hb2 hpos]
  · have hb3 : Real.exp (-(45 : ℝ)) < 37/2602 := by
      apply exp_neg_lt _ _ (by norm_num)
      rw [show ((37:ℝ)/2602)⁻¹ = 2602/37 by norm_num]
      have h5 := exp_div_gt 5 1 (2602/37) (by norm_num) (by norm_num)
      rw [show ((5:ℕ):ℝ) / ((1:ℕ):ℝ) = (5 : ℝ) by norm_num] at h5
      exact h5.trans_le (Real.exp_le_exp.mpr (by norm_num))
    have hsplit : Real.exp (-(50 : ℝ)) = Real.exp (-(5 : ℝ)) * Real.exp (-(45 : ℝ)) := by
      rw [← Real.exp_add]
      norm_num
    have hpos := Real.exp_pos (-(5 : ℝ))
    rw [e2, e3, hsplit]
    nlinarith [mul_lt_mul_of_pos_left hb3 hpos]

/-- Claim C5, counterexample: the code's probabilityOfAtLeastN
    (`cdf(n-1; rate*t)`) is NOT non-increasing in n: at t = 1, rate = 1 it
    strictly grows from n = 1 to n = 2. -/
theorem c5_cex : ¬ (poissonProb2 2 1 1 ≤ poissonProb2 1 1 1) := by
  rw [not_le]
  have e1 : poissonProb2 1 1 1 = Real.exp (-(1 : ℝ)) * (1 : ℝ) := by
    have hs : poissonSum 0 (1 * 1) = 1 := by
      norm_num [poissonSum, Finset.sum_range_succ, Nat.factorial]
    simp only [poissonProb2, poissonCdf, hs]
    norm_num
  have e2 : poissonProb2 2 1 1 = Real.exp (-(1 : ℝ)) * (2 : ℝ) := by
    have hs : poissonSum 1 (1 * 1) = 2 := by
      norm_num [poissonSum, Finset.sum_range_succ, Nat.factorial]
    simp only [poissonProb2, poissonCdf, hs]
    norm_num
  rw [e1, e2]
  have := Real.exp_pos (-(1 : ℝ))
  linarith

/-- Claim C5, amended: for integer n ≥ 1, t ≥ 0 and rate > 0 the code's
    probabilityOfAtLeastN (`cdf(n-1; rate*t)`) is non-DEcreasing in n. -/
theorem c5_thm (n : ℕ) (t rate : ℚ) (hn : 1 ≤ n) (ht : 0 ≤ t) (hr : 0 < rate) :
    poissonProb2 n t rate ≤ poissonProb2 (n + 1) t rate := by
  have hn0 : n ≠ 0 := by omega
  have hn1 : n + 1 ≠ 0 := by omega
  simp only [poissonProb2, if_neg hn0, if_neg hn1, Nat.add_sub_cancel]
  unfold poissonCdf
  apply mul_le_mul_of_nonneg_left _ (Real.exp_pos _).le
  have hμ : (0 : ℚ) ≤ rate * t := mul_nonneg hr.le ht
  have hsum : poissonSum (n - 1) (rate * t) ≤ poissonSum n (rate * t) := by
    unfold poissonSum
    apply Finset.sum_le_sum_of_subset_of_nonneg
      (Finset.range_subset.mpr (by omega))
    intro j _ _
    exact div_nonneg (pow_nonneg hμ j) (by positivity)
  exact_mod_cast hsum

/-- Witness for c5_thm at n = 1, t = 1, rate = 1. -/
theorem c5_wit :
    1 ≤ 1 ∧ (0 : ℚ) ≤ 1 ∧ (0 : ℚ) < 1
      ∧ poissonProb2 1 1 1 ≤ poissonProb2 2 1 1 :=
  ⟨le_refl 1, by norm_num, by norm_num,
    c5_thm 1 1 1 (le_refl 1) (by norm_num) (by norm_num)⟩

/-- Claim C3: after the module's top-level definitions have executed, for
    every non-empty event sequence and every rate, poissonScore raises a
    TypeError — the rebound `poissonProb(n, t, l)` rejects the
    `correctForSelection` keyword at argument binding — and the same
    rebinding-induced TypeError propagates to poissonScoreBlame: already its
    first `poissonProb(ev2, ev[0:], rate)` call reaches the rebound body,
    where `n - 1` with `n` the Python list `ev2` raises TypeError. -/
theorem c3_thm (events : List ℚ) (rate : ℚ) (h : events ≠ []) :
    poissonScoreDyn events rate = Except.error PyError.typeError
      ∧ poissonScoreBlameDyn events rate = Except.error PyError.typeError := by
  constructor
  · rfl
  · obtain ⟨a, tl, rfl⟩ := List.exists_cons_of_ne_nil h
    unfold poissonScoreBlameDyn
    rw [if_neg (by simp)]
    have hr : List.range (a :: tl).length
        = 0 :: (List.range tl.length).map Nat.succ := by
      simp [List.range_succ_eq_map]
    rw [hr]
    unfold poissonScoreBlameDynLoop
    simp [poissonProbFinalCall, bindCall, poissonProbFinalParams, pyScale,
      pySubOne, cdfBroadcast]

/-- Witness for c3_thm at events = [1], rate = 1. -/
theorem c3_wit :
    ([(1 : ℚ)] ≠ [])
      ∧ (poissonScoreDyn [(1 : ℚ)] 1 = Except.error PyError.typeError
        ∧ poissonScoreBlameDyn [(1 : ℚ)] 1 = Except.error PyError.typeError) :=
  ⟨by simp, c3_thm [(1 : ℚ)] 1 (by simp)⟩

/-- In a strictly ascending list, the number of elements at or before the
    i-th element is i + 1. -/
lemma countAtOrBefore_sorted :
    ∀ (l : List ℚ), l.Pairwise (· < ·) → ∀ i (hi : i < l.length),
      countAtOrBefore l l[i] = i + 1 := by
  intro l
  induction l with
  | nil =>
    intro _ i hi
    simp at hi
  | cons a t ih =>
    intro hp i hi
    have ha : ∀ b ∈ t, a < b := (List.pairwise_cons.mp hp).1
    have ht : t.Pairwise (· < ·) := (List.pairwise_cons.mp hp).2
    cases i with
    | zero =>
      show countAtOrBefore (a :: t) a = 1
      unfold countAtOrBefore
      have hfil : t.filter (fun b => decide (b ≤ a)) = [] := by
        apply List.filter_eq_nil_iff.mpr
        intro b hb
        simp only [decide_eq_true_eq]
        exact not_le.mpr (ha b hb)
      simp [List.filter_cons, hfil]
    | succ j =>
      have hj : j < t.length := by simpa using hi
      have hmem : t[j] ∈ t := List.getElem_mem hj
      have hle : a ≤ t[j] := (ha _ hmem).le
      have hstep := ih ht j hj
      simp only [List.getElem_cons_succ]
      unfold countAtOrBefore at hstep ⊢
      simp [List.filter_cons, hle, hstep]

/-- Claim C2, counterexample: the first `poissonProb` does not use the
    event-count formula of the claim: it ignores `events` and uses the
    1-based index into `xvals`.  At events = [], xvals = [1], rate = 1 and no
    selection correction, the code gives `1 - cdf(1; 1)` while the claim
    demands `1 - cdf(0; 1)`. -/
theorem c2_cex :
    poissonProbList [] [1] 1 false ≠ poissonProbSpecC2 [] [1] 1 false := by
  intro h
  have h1 : (1 : ℝ) - poissonCdf 1 (1 * (1 + 0)) = 1 - poissonCdf 0 (1 * (1 + 0)) := by
    have := congrArg (fun l => l.getD 0 0) h
    simpa [poissonProbList, poissonProbSpecC2, countAtOrBefore, List.range_succ] using this
  have h2 : poissonCdf 1 (1 * (1 + 0)) = poissonCdf 0 (1 * (1 + 0)) := by linarith
  unfold poissonCdf at h2
  have hs1 : poissonSum 1 (1 * (1 + 0)) = 2 := by
    norm_num [poissonSum, Finset.sum_range_succ, Nat.factorial]
  have hs0 : poissonSum 0 (1 * (1 + 0)) = 1 := by
    norm_num [poissonSum, Finset.sum_range_succ, Nat.factorial]
  rw [hs1, hs0] at h2
  have hpos : (0 : ℝ) < Real.exp (-((1 * (1 + 0) : ℚ) : ℝ)) := Real.exp_pos _
  push_cast at h2 hpos
  linarith [hpos, h2]

/-- Claim C2, amended: when the candidate window ends are the event times
    themselves, strictly sorted ascending (the way ScoreEngine calls it),
    the index-based value the code computes coincides with the claimed
    count-based formula `1 - CDF(count at or before x; rate*(x+e))`. -/
theorem c2_thm (events : List ℚ) (rate : ℚ) (c : Bool)
    (hs : events.Pairwise (· < ·)) :
    poissonProbList events events rate c = poissonProbSpecC2 events events rate c := by
  apply List.ext_getElem
  · simp [poissonProbList, poissonProbSpecC2]
  · intro i h1 h2
    have hi : i < events.length := by
      simpa [poissonProbList] using h1
    simp only [poissonProbList, poissonProbSpecC2, List.getElem_map, List.getElem_range]
    have hgd : events.getD i 0 = events[i] := List.getD_eq_getElem events 0 hi
    have hcount : countAtOrBefore events events[i] = i + 1 :=
      countAtOrBefore_sorted events hs i hi
    rw [hgd, hcount]

/-- Witness for c2_thm at events = [1, 2], rate = 1, correctForSelection
    true. -/
theorem c2_wit :
    (([1, 2] : List ℚ).Pairwise (· < ·))
      ∧ poissonProbList [1, 2] [1, 2] 1 true = poissonProbSpecC2 [1, 2] [1, 2] 1 true :=
  ⟨by norm_num, c2_thm [1, 2] 1 true (by norm_num)⟩

/-- Claim C1, counterexample: at events = [1], rate = 1 the score the code
    computes is `1/(1 - cdf(1; 2))`, not the claimed `1/(1 - cdf(0; 2))`
    (probability that "1 or more" events occur): the code's minimum ranges
    over `1 - cdf(i; ...)` for 1-indexed i, one count higher than the claim
    states. -/
theorem c1_cex : poissonScore [1] 1 ≠ poissonScoreSpecC1 [1] 1 := by
  have hs1 : poissonSum 1 2 = 3 := by
    norm_num [poissonSum, Finset.sum_range_succ, Nat.factorial]
  have hs0 : poissonSum 0 2 = 1 := by
    norm_num [poissonSum, Finset.sum_range_succ, Nat.factorial]
  have e1 : poissonScore [1] 1 = 1 / (1 - Real.exp (-(2 : ℝ)) * 3) := by
    simp only [poissonScore, poissonProbList, listMin, poissonCdf]
    norm_num [List.range_succ, hs1, Real.sqrt_one]
  have e2 : poissonScoreSpecC1 [1] 1 = 1 / (1 - Real.exp (-(2 : ℝ)) * 1) := by
    simp only [poissonScoreSpecC1, listMin, poissonCdf]
    norm_num [List.range_succ, hs0, Real.sqrt_one]
  intro hcon
  rw [e1, e2, one_div, one_div] at hcon
  have heq := inv_injective hcon
  have hx0 := Real.exp_pos (-(2 : ℝ))
  linarith

/-- Claim C1, amended: for every event sequence and rate, poissonScore is
    1.0 on the empty sequence, and otherwise `(1/p_min)/sqrt(rate)` where
    p_min is the minimum over 1-indexed prefixes i of the selection-corrected
    probability that MORE than i events (at least i+1) occur within
    [0, eventTime_i], i.e. `1 - cdf(i; rate*(t_i + 1/rate))`. -/
theorem c1_thm (events : List ℚ) (rate : ℚ) :
    poissonScore events rate = poissonScoreSpecAmended events rate := by
  by_cases h : events.length = 0
  · have hnil : events = [] := List.length_eq_zero.mp h
    subst hnil
    simp [poissonScore, poissonScoreSpecAmended, poissonProbList]
  · have hlen : (poissonProbList events events rate true).length = events.length := by
      simp [poissonProbList]
    have hf : poissonProbList events events rate true
        = (List.range events.length).map
            (fun j => 1 - poissonCdf (j + 1) (rate * (events.getD j 0 + 1 / rate))) := by
      simp [poissonProbList]
    unfold poissonScore poissonScoreSpecAmended
    rw [hlen, if_neg h, dif_neg h, hf, listMin_range_map _ _ h]

/-- Claim C8: inserting the tightly-clustered early event 0.02 into the
    baseline sequence [0.1, 0.3, 0.5, 0.7] at rate = 2 strictly increases
    poissonScore. -/
theorem c8_thm :
    poissonScore [1/10, 3/10, 1/2, 7/10] 2
      < poissonScore [1/50, 1/10, 3/10, 1/2, 7/10] 2 := by
  have hB : poissonProbList [1/10, 3/10, 1/2, 7/10] [1/10, 3/10, 1/2, 7/10] 2 true
      = [1 - poissonCdf 1 (6/5), 1 - poissonCdf 2 (8/5),
         1 - poissonCdf 3 2, 1 - poissonCdf 4 (12/5)] := by
    simp only [poissonProbList]
    norm_num [List.range_succ]
  have hN : poissonProbList [1/50, 1/10, 3/10, 1/2, 7/10] [1/50, 1/10, 3/10, 1/2, 7/10] 2 true
      = [1 - poissonCdf 1 (26/25), 1 - poissonCdf 2 (6/5), 1 - poissonCdf 3 (8/5),
         1 - poissonCdf 4 2, 1 - poissonCdf 5 (12/5)] := by
    simp only [poissonProbList]
    norm_num [List.range_succ]
  have p0 : 0 < 1 - poissonCdf 1 (26/25) := by
    apply one_sub_poissonCdf_pos
    have hs : poissonSum 1 (26/25) = 51/25 := by
      norm_num [poissonSum, Finset.sum_range_succ, Nat.factorial]
    rw [hs, show ((51/25 : ℚ) : ℝ) = 51/25 by norm_num]
    calc (51/25 : ℝ) < 27/10 := by norm_num
    _ < Real.exp 1 := exp_one_gt_27
    _ ≤ Real.exp ((26/25 : ℚ) : ℝ) := Real.exp_le_exp.mpr (by norm_num)
  have p1 : 0 < 1 - poissonCdf 2 (6/5) := by
    apply one_sub_poissonCdf_pos
    have hs : poissonSum 2 (6/5) = 73/25 := by
      norm_num [poissonSum, Finset.sum_range_succ, Nat.factorial]
    rw [hs, show ((73/25 : ℚ) : ℝ) = 73/25 by norm_num]
    have h := exp_div_gt 6 5 (73/25) (by norm_num) (by norm_num)
    rw [show ((6 : ℕ) : ℝ) / ((5 : ℕ) : ℝ) = ((6/5 : ℚ) : ℝ) by norm_num] at h
    exact h
  have p2 : 0 < 1 - poissonCdf 3 (8/5) := by
    apply one_sub_poissonCdf_pos
    have hs : poissonSum 3 (8/5) = 1711/375 := by
      norm_num [poissonSum, Finset.sum_range_succ, Nat.factorial]
    rw [hs, show ((1711/375 : ℚ) : ℝ) = 1711/375 by norm_num]
    have h := exp_div_gt 8 5 (1711/375) (by norm_num) (by norm_num)
    rw [show ((8 : ℕ) : ℝ) / ((5 : ℕ) : ℝ) = ((8/5 : ℚ) : ℝ) by norm_num] at h
    exact h
  have p3 : 0 < 1 - poissonCdf 4 2 := by
    apply one_sub_poissonCdf_pos
    have hs : poissonSum 4 2 = 7 := by
      norm_num [poissonSum, Finset.sum_range_succ, Nat.factorial]
    rw [hs, show ((7 : ℚ) : ℝ) = 7 by norm_num]
    have h := exp_div_gt 2 1 7 (by norm_num) (by norm_num)
    rw [show ((2 : ℕ) : ℝ) / ((1 : ℕ) : ℝ) = ((2 : ℚ) : ℝ) by norm_num] at h
    exact h
  have p4 : 0 < 1 - poissonCdf 5 (12/5) := by
    apply one_sub_poissonCdf_pos
    have hs : poissonSum 5 (12/5) = 166093/15625 := by
      norm_num [poissonSum, Finset.sum_range_succ, Nat.factorial]
    rw [hs, show ((166093/15625 : ℚ) : ℝ) = 166093/15625 by norm_num]
    have h := exp_div_gt 12 5 (166093/15625) (by norm_num) (by norm_num)
    rw [show ((12 : ℕ) : ℝ) / ((5 : ℕ) : ℝ) = ((12/5 : ℚ) : ℝ) by norm_num] at h
    exact h
  have cmp3 : poissonCdf 4 (12/5) < poissonCdf 5 (12/5) := by
    apply poissonCdf_lt
    rw [show ((12/5 : ℚ) : ℝ) - ((12/5 : ℚ) : ℝ) = 0 by norm_num, Real.exp_zero, one_mul]
    have hs1 : poissonSum 4 (12/5) = 6229/625 := by
      norm_num [poissonSum, Finset.sum_range_succ, Nat.factorial]
    have hs2 : poissonSum 5 (12/5) = 166093/15625 := by
      norm_num [poissonSum, Finset.sum_range_succ, Nat.factorial]
    rw [hs1, hs2]
    norm_num
  have cmp2 : poissonCdf 3 2 < poissonCdf 5 (12/5) := by
    apply poissonCdf_lt
    rw [show ((12/5 : ℚ) : ℝ) - ((2 : ℚ) : ℝ) = 2/5 by norm_num]
    have hs1 : poissonSum 3 2 = 19/3 := by
      norm_num [poissonSum, Finset.sum_range_succ, Nat.factorial]
    have hs2 : poissonSum 5 (12/5) = 166093/15625 := by
      norm_num [poissonSum, Finset.sum_range_succ, Nat.factorial]
    rw [hs1, hs2, show ((19/3 : ℚ) : ℝ) = 19/3 by norm_num,
      show ((166093/15625 : ℚ) : ℝ) = 166093/15625 by norm_num]
    have hub : Real.exp ((2 : ℝ)/5) < 498279/296875 := by
      have h := exp_div_lt 2 5 (498279/296875) (by norm_num) (by norm_num) (by norm_num)
      rw [show ((2 : ℕ) : ℝ) / ((5 : ℕ) : ℝ) = (2 : ℝ)/5 by norm_num] at h
      exact h
    nlinarith [hub]
  have cmp1 : poissonCdf 2 (8/5) < poissonCdf 5 (12/5) := by
    apply poissonCdf_lt
    rw [show ((12/5 : ℚ) : ℝ) - ((8/5 : ℚ) : ℝ) = 4/5 by norm_num]
    have hs1 : poissonSum 2 (8/5) = 97/25 := by
      norm_num [poissonSum, Finset.sum_range_succ, Nat.factorial]
    have hs2 : poissonSum 5 (12/5) = 166093/15625 := by
      norm_num [poissonSum, Finset.sum_range_succ, Nat.factorial]
    rw [hs1, hs2, show ((97/25 : ℚ) : ℝ) = 97/25 by norm_num,
      show ((166093/15625 : ℚ) : ℝ) = 166093/15625 by norm_num]
    have hub : Real.exp ((4 : ℝ)/5) < 166093/60625 := by
      have h := exp_div_lt 4 5 (166093/60625) (by norm_num) (by norm_num) (by norm_num)
      rw [show ((4 : ℕ) : ℝ) / ((5 : ℕ) : ℝ) = (4 : ℝ)/5 by norm_num] at h
      exact h
    nlinarith [hub]
  have cmp0 : poissonCdf 1 (6/5) < poissonCdf 5 (12/5) := by
    apply poissonCdf_lt
    rw [show ((12/5 : ℚ) : ℝ) - ((6/5 : ℚ) : ℝ) = 6/5 by norm_num]
    have hs1 : poissonSum 1 (6/5) = 11/5 := by
      norm_num [poissonSum, Finset.sum_range_succ, Nat.factorial]
    have hs2 : poissonSum 5 (12/5) = 166093/15625 := by
      norm_num [poissonSum, Finset.sum_range_succ, Nat.factorial]
    rw [hs1, hs2, show ((11/5 : ℚ) : ℝ) = 11/5 by norm_num,
      show ((166093/15625 : ℚ) : ℝ) = 166093/15625 by norm_num]
    have hub : Real.exp ((6 : ℝ)/5) < 166093/34375 := by
      have h := exp_div_lt 6 5 (166093/34375) (by norm_num) (by norm_num) (by norm_num)
      rw [show ((6 : ℕ) : ℝ) / ((5 : ℕ) : ℝ) = (6 : ℝ)/5 by norm_num] at h
      exact h
    nlinarith [hub]
  have q3 : 1 - poissonCdf 5 (12/5) < 1 - poissonCdf 4 (12/5) := sub_lt_sub_left cmp3 1
  have q2 : 1 - poissonCdf 5 (12/5) < 1 - poissonCdf 3 2 := sub_lt_sub_left cmp2 1
  have q1 : 1 - poissonCdf 5 (12/5) < 1 - poissonCdf 2 (8/5) := sub_lt_sub_left cmp1 1
  have q0 : 1 - poissonCdf 5 (12/5) < 1 - poissonCdf 1 (6/5) := sub_lt_sub_left cmp0 1
  unfold poissonScore
  rw [hB, hN]
  rw [if_neg (by simp), if_neg (by simp)]
  rw [show ((2 : ℚ) : ℝ) = 2 by norm_num]
  have hlmB : listMin [1 - poissonCdf 1 (6/5), 1 - poissonCdf 2 (8/5),
      1 - poissonCdf 3 2, 1 - poissonCdf 4 (12/5)]
      = min (min (min (1 - poissonCdf 1 (6/5)) (1 - poissonCdf 2 (8/5)))
          (1 - poissonCdf 3 2)) (1 - poissonCdf 4 (12/5)) := by
    simp [listMin]
  have hlmN : listMin [1 - poissonCdf 1 (26/25), 1 - poissonCdf 2 (6/5),
      1 - poissonCdf 3 (8/5), 1 - poissonCdf 4 2, 1 - poissonCdf 5 (12/5)]
      = min (min (min (min (1 - poissonCdf 1 (26/25)) (1 - poissonCdf 2 (6/5)))
          (1 - poissonCdf 3 (8/5))) (1 - poissonCdf 4 2)) (1 - poissonCdf 5 (12/5)) := by
    simp [listMin]
  have hNpos : 0 < listMin [1 - poissonCdf 1 (26/25), 1 - poissonCdf 2 (6/5),
      1 - poissonCdf 3 (8/5), 1 - poissonCdf 4 2, 1 - poissonCdf 5 (12/5)] := by
    rw [hlmN]
    simp only [lt_min_iff]
    exact ⟨⟨⟨⟨p0, p1⟩, p2⟩, p3⟩, p4⟩
  have hNle : listMin [1 - poissonCdf 1 (26/25), 1 - poissonCdf 2 (6/5),
      1 - poissonCdf 3 (8/5), 1 - poissonCdf 4 2, 1 - poissonCdf 5 (12/5)]
      ≤ 1 - poissonCdf 5 (12/5) := by
    rw [hlmN]
    exact min_le_right _ _
  have hBgt : 1 - poissonCdf 5 (12/5) < listMin [1 - poissonCdf 1 (6/5),
      1 - poissonCdf 2 (8/5), 1 - poissonCdf 3 2, 1 - poissonCdf 4 (12/5)] := by
    rw [hlmB]
    simp only [lt_min_iff]
    exact ⟨⟨⟨q0, q1⟩, q2⟩, q3⟩
  have hlt : listMin [1 - poissonCdf 1 (26/25), 1 - poissonCdf 2 (6/5),
      1 - poissonCdf 3 (8/5), 1 - poissonCdf 4 2, 1 - poissonCdf 5 (12/5)]
      < listMin [1 - poissonCdf 1 (6/5), 1 - poissonCdf 2 (8/5),
          1 - poissonCdf 3 2, 1 - poissonCdf 4 (12/5)] :=
    lt_of_le_of_lt hNle hBgt
  have hsqrt : (0 : ℝ) < Real.sqrt 2 := Real.sqrt_pos.mpr (by norm_num)
  exact (div_lt_div_right hsqrt).mpr (one_div_lt_one_div_of_lt hNpos hlt)

/-- Evaluation of poissonIntegral on the empty sequence with tMin < tMax and
    a cache miss at count 0: the walk sees only the sentinel tMax, builds the
    count-0 curve, and sums the [0:999] slice of it. -/
lemma poissonIntegral_nil_miss (rate tMin tMax : ℚ) (cache : PICache)
    (h : tMin < tMax) (hc : cache 0 = none) :
    poissonIntegral [] rate tMin tMax cache
      = ((∑ k ∈ Finset.Ico (0 : ℕ) 999,
            1 / (1 - poissonCdf 0 (rate * (tMin + (k : ℚ) * ((tMax - tMin) / 999)))))
          * (((tMax - tMin) / 999 : ℚ) : ℝ),
         fun m => if m = 0 then
            some (fun k : ℕ => 1 - poissonCdf 0 (rate * (tMin + (k : ℚ) * ((tMax - tMin) / 999))))
          else cache m) := by
  have hne : tMax - tMin ≠ 0 := ne_of_gt (by linarith)
  have h1 : ¬ (tMax < tMin) := not_lt.mpr h.le
  have h2 : ¬ (tMax < tMax) := lt_irrefl tMax
  have hdiv : (tMax - tMin) / ((tMax - tMin) / 999) = 999 := by
    field_simp
  have hi1 : (pyInt ((tMin - tMin) / ((tMax - tMin) / 999))).toNat = 0 := by
    norm_num [pyInt]
  have hi2 : (pyInt ((tMax - tMin) / ((tMax - tMin) / 999))).toNat = 999 := by
    rw [hdiv]
    simp [pyInt]
  unfold poissonIntegral
  simp only [List.mergeSort_nil, List.nil_append]
  rw [piLoop]
  simp only [h1, if_false, h2, hi1, hi2, hc, zero_add]
  norm_num

/-- Evaluation of poissonIntegral on the empty sequence with tMin < tMax and
    a cache hit at count 0: the cached curve is reused whatever rate it was
    built for, and the cache is unchanged. -/
lemma poissonIntegral_nil_hit (rate tMin tMax : ℚ) (cache : PICache) (f : ℕ → ℝ)
    (h : tMin < tMax) (hc : cache 0 = some f) :
    poissonIntegral [] rate tMin tMax cache
      = ((∑ k ∈ Finset.Ico (0 : ℕ) 999, 1 / f k) * (((tMax - tMin) / 999 : ℚ) : ℝ),
         cache) := by
  have hne : tMax - tMin ≠ 0 := ne_of_gt (by linarith)
  have h1 : ¬ (tMax < tMin) := not_lt.mpr h.le
  have h2 : ¬ (tMax < tMax) := lt_irrefl tMax
  have hdiv : (tMax - tMin) / ((tMax - tMin) / 999) = 999 := by
    field_simp
  have hi1 : (pyInt ((tMin - tMin) / ((tMax - tMin) / 999))).toNat = 0 := by
    norm_num [pyInt]
  have hi2 : (pyInt ((tMax - tMin) / ((tMax - tMin) / 999))).toNat = 999 := by
    rw [hdiv]
    simp [pyInt]
  unfold poissonIntegral
  simp only [List.mergeSort_nil, List.nil_append]
  rw [piLoop]
  simp only [h1, if_false, h2, hi1, hi2, hc, zero_add]
  norm_num

/-- The baseline (count 0) reciprocal improbability on [1, ∞) is strictly
    larger at rate 1 than at rate 2. -/
lemma recip_tail_lt (x : ℚ) (hx : (1 : ℚ) ≤ x) :
    1 / (1 - poissonCdf 0 (2 * x)) < 1 / (1 - poissonCdf 0 (1 * x)) := by
  have hcdf : ∀ μ : ℚ, poissonCdf 0 μ = Real.exp (-(μ : ℝ)) := by
    intro μ
    unfold poissonCdf
    norm_num [poissonSum]
  rw [hcdf, hcdf]
  have hx' : (1 : ℝ) ≤ (x : ℝ) := by exact_mod_cast hx
  have h2x : ((2 * x : ℚ) : ℝ) = 2 * (x : ℝ) := by push_cast; ring
  have h1x : ((1 * x : ℚ) : ℝ) = (x : ℝ) := by push_cast; ring
  rw [h2x, h1x]
  have e1 : Real.exp (-(x : ℝ)) < 1 := Real.exp_lt_one_iff.mpr (by linarith)
  have e2 : Real.exp (-(2 * (x : ℝ))) < Real.exp (-(x : ℝ)) := Real.exp_lt_exp.mpr (by linarith)
  have d1 : (0 : ℝ) < 1 - Real.exp (-(x : ℝ)) := by linarith
  apply one_div_lt_one_div_of_lt d1
  linarith

/-- Claim C6: two successive poissonIntegral calls sharing the cache and
    identical except for the rate (rate 1 then rate 2, empty events, window
    [1, 2]) give a second result different from the same rate-2 call against
    an empty cache: the count-keyed cache silently reuses the rate-1 curve. -/
theorem c6_thm :
    (poissonIntegral [] 2 1 2 ((poissonIntegral [] 1 1 2 emptyCache).2)).1
      ≠ (poissonIntegral [] 2 1 2 emptyCache).1 := by
  have hmiss1 := poissonIntegral_nil_miss 1 1 2 emptyCache (by norm_num) rfl
  have hc1 : (poissonIntegral [] 1 1 2 emptyCache).2 0
      = some (fun k : ℕ => 1 - poissonCdf 0 (1 * (1 + (k : ℚ) * ((2 - 1) / 999)))) := by
    rw [hmiss1]
    simp
  have hshared := poissonIntegral_nil_hit 2 1 2 _ _ (by norm_num) hc1
  have hfresh := poissonIntegral_nil_miss 2 1 2 emptyCache (by norm_num) rfl
  rw [hshared, hfresh]
  have hdt : (0 : ℝ) < (((2 - 1 : ℚ) / 999 : ℚ) : ℝ) := by norm_num
  have hsum : ∑ k ∈ Finset.Ico (0 : ℕ) 999,
        1 / (1 - poissonCdf 0 (2 * (1 + (k : ℚ) * ((2 - 1) / 999))))
      < ∑ k ∈ Finset.Ico (0 : ℕ) 999,
        1 / (1 - poissonCdf 0 (1 * (1 + (k : ℚ) * ((2 - 1) / 999)))) := by
    apply Finset.sum_lt_sum_of_nonempty
    · exact Finset.nonempty_Ico.mpr (by norm_num)
    · intro k _
      apply recip_tail_lt
      have : (0 : ℚ) ≤ (k : ℚ) * ((2 - 1) / 999) := by positivity
      linarith
  have := mul_lt_mul_of_pos_right hsum hdt
  dsimp only
  exact ne_of_gt this

/-- With a negative rate the count-0 curve is 1 - exp(positive) < 0
    pointwise, so the whole integral is negative: the code raises no
    invalid-parameter error, it just computes. -/
lemma poissonIntegral_neg_rate (rate : ℚ) (hr : rate < 0) :
    (poissonIntegral [] rate 1 2 emptyCache).1 < 0 := by
  have hmiss := poissonIntegral_nil_miss rate 1 2 emptyCache (by norm_num) rfl
  rw [hmiss]
  dsimp only
  have hdt : (0 : ℝ) < (((2 - 1 : ℚ) / 999 : ℚ) : ℝ) := by norm_num
  apply mul_neg_of_neg_of_pos _ hdt
  have hterm : ∀ k ∈ Finset.Ico (0 : ℕ) 999,
      1 / (1 - poissonCdf 0 (rate * (1 + (k : ℚ) * ((2 - 1) / 999)))) < 0 := by
    intro k _
    have hcdf : poissonCdf 0 (rate * (1 + (k : ℚ) * ((2 - 1) / 999)))
        = Real.exp (-((rate * (1 + (k : ℚ) * ((2 - 1) / 999)) : ℚ) : ℝ)) := by
      unfold poissonCdf
      norm_num [poissonSum]
    rw [hcdf]
    have hk : (0 : ℚ) ≤ (k : ℚ) * ((2 - 1) / 999) := by positivity
    have hμ : (rate * (1 + (k : ℚ) * ((2 - 1) / 999)) : ℚ) < 0 :=
      mul_neg_of_neg_of_pos hr (by linarith)
    have hμ' : ((rate * (1 + (k : ℚ) * ((2 - 1) / 999)) : ℚ) : ℝ) < 0 := by
      exact_mod_cast hμ
    have hexp : 1 < Real.exp (-((rate * (1 + (k : ℚ) * ((2 - 1) / 999)) : ℚ) : ℝ)) :=
      Real.one_lt_exp_iff.mpr (by linarith)
    have hden : 1 - Real.exp (-((rate * (1 + (k : ℚ) * ((2 - 1) / 999)) : ℚ) : ℝ)) < 0 := by
      linarith
    exact div_neg_of_pos_of_neg one_pos hden
  have hne : (Finset.Ico (0 : ℕ) 999).Nonempty := Finset.nonempty_Ico.mpr (by norm_num)
  calc ∑ k ∈ Finset.Ico (0 : ℕ) 999,
        1 / (1 - poissonCdf 0 (rate * (1 + (k : ℚ) * ((2 - 1) / 999))))
      < ∑ _k ∈ Finset.Ico (0 : ℕ) 999, (0 : ℝ) :=
        Finset.sum_lt_sum_of_nonempty hne hterm
  _ = 0 := Finset.sum_const_zero

/-- Claim C7, counterexample: at rate = -1 (with empty events and window
    [1, 2]) poissonIntegral does not fail with any invalid-parameter error:
    it silently returns a value, and that value is even negative. -/
theorem c7_cex : (poissonIntegral [] (-1) 1 2 emptyCache).1 < 0 :=
  poissonIntegral_neg_rate (-1) (by norm_num)

/-- Claim C7, amended: poissonScore and poissonIntegral contain no rate
    validation at all; for every rate < 0, poissonIntegral (empty events,
    window [1, 2], fresh cache) silently returns an ordinary value (negative
    in exact arithmetic; NaN-contaminated in floating point) rather than
    raising an invalid-parameter error. -/
theorem c7_thm (rate : ℚ) (hr : rate < 0) :
    (poissonIntegral [] rate 1 2 emptyCache).1 < 0 :=
  poissonIntegral_neg_rate rate hr

/-- Witness for c7_thm at rate = -2. -/
theorem c7_wit :
    (-2 : ℚ) < 0 ∧ (poissonIntegral [] (-2) 1 2 emptyCache).1 < 0 :=
  ⟨by norm_num, c7_thm (-2) (by norm_num)⟩

/-- With tMax < tMin every event (and the sentinel tMax) is below tMin, so
    the walk skips everything and poissonIntegral returns 0 with the cache
    untouched: no explicit invalid-input failure. -/
lemma poissonIntegral_reversed (rate tMin tMax : ℚ) (cache : PICache)
    (h : tMax < tMin) :
    poissonIntegral [] rate tMin tMax cache = (0, cache) := by
  unfold poissonIntegral
  simp only [List.mergeSort_nil, List.nil_append]
  rw [piLoop]
  simp only [if_pos h]
  rw [piLoop]
  simp

/-- Claim C10, counterexample: at tMin = 2 > tMax = 1, rate = 1, empty
    events, poissonIntegral silently returns 0 with the cache unchanged
    instead of failing with an explicit invalid-input error. -/
theorem c10_cex : poissonIntegral [] 1 2 1 emptyCache = (0, emptyCache) :=
  poissonIntegral_reversed 1 2 1 emptyCache (by norm_num)

/-- Claim C10, amended: poissonIntegral performs no tMin/tMax validation;
    for every tMin > tMax, rate and cache, on an event sequence with no
    event at or above tMin (here the empty one) it silently returns 0 and
    leaves the cache unchanged rather than failing explicitly. -/
theorem c10_thm (rate tMin tMax : ℚ) (cache : PICache) (h : tMax < tMin) :
    poissonIntegral [] rate tMin tMax cache = (0, cache) :=
  poissonIntegral_reversed rate tMin tMax cache h

/-- Witness for c10_thm at rate = 5, tMin = 2, tMax = 1. -/
theorem c10_wit :
    (1 : ℚ) < 2 ∧ poissonIntegral [] 5 2 1 emptyCache = (0, emptyCache) :=
  ⟨by norm_num, c10_thm 5 2 1 emptyCache (by norm_num)⟩

/-- Claim C9: a BlameVector returned (Except.ok) by poissonScoreBlame or
    poissonIntegralBlame never contains a NaN entry, and whenever a NaN
    arises in the internally computed entry list the call aborts with the
    AssertionError of the source's `assert not any(np.isnan(pp))` instead of
    returning a partially-valid vector. -/
theorem c9_thm (ev : List ℚ) (rate xMin xMax : ℚ) (cache : PICache)
    (hev : 1 ≤ ev.length) :
    (∀ v, poissonScoreBlame ev rate = Except.ok v
        → v.any (fun x => isNan x) = false)
      ∧ ((poissonScoreBlameRaw ev rate).any (fun x => isNan x) = true
        → poissonScoreBlame ev rate = Except.error PyError.assertionError)
      ∧ (∀ v, poissonIntegralBlame ev rate xMin xMax cache = Except.ok v
        → v.any (fun x => isNan x) = false)
      ∧ ((pibLoop ev rate xMin xMax (List.range ev.length) cache).1.any
            (fun x => isNan x) = true
        → poissonIntegralBlame ev rate xMin xMax cache
            = Except.error PyError.assertionError) := by
  have hlen : ¬ ev.length = 0 := by omega
  refine ⟨?_, ?_, ?_, ?_⟩
  · intro v hv
    unfold poissonScoreBlame at hv
    rw [if_neg hlen] at hv
    by_cases hnan : (poissonScoreBlameRaw ev rate).any (fun x => isNan x) = true
    · rw [if_pos hnan] at hv
      cases hv
    · rw [if_neg hnan] at hv
      injection hv with h
      subst h
      exact Bool.eq_false_iff.mpr hnan
  · intro hnan
    unfold poissonScoreBlame
    rw [if_neg hlen, if_pos hnan]
  · intro v hv
    unfold poissonIntegralBlame at hv
    by_cases hnan : (pibLoop ev rate xMin xMax (List.range ev.length) cache).1.any
        (fun x => isNan x) = true
    · rw [if_pos hnan] at hv
      cases hv
    · rw [if_neg hnan] at hv
      injection hv with h
      subst h
      exact Bool.eq_false_iff.mpr hnan
  · intro hnan
    unfold poissonIntegralBlame
    rw [if_pos hnan]

/-- Witness for c9_thm at ev = [1], rate = 1, window [0, 1], empty cache. -/
theorem c9_wit :
    1 ≤ ([(1 : ℚ)]).length
      ∧ ((∀ v, poissonScoreBlame [(1 : ℚ)] 1 = Except.ok v
            → v.any (fun x => isNan x) = false)
        ∧ ((poissonScoreBlameRaw [(1 : ℚ)] 1).any (fun x => isNan x) = true
            → poissonScoreBlame [(1 : ℚ)] 1 = Except.error PyError.assertionError)
        ∧ (∀ v, poissonIntegralBlame [(1 : ℚ)] 1 0 1 emptyCache = Except.ok v
            → v.any (fun x => isNan x) = false)
        ∧ ((pibLoop [(1 : ℚ)] 1 0 1 (List.range ([(1 : ℚ)]).length) emptyCache).1.any
              (fun x => isNan x) = true
            → poissonIntegralBlame [(1 : ℚ)] 1 0 1 emptyCache
                = Except.error PyError.assertionError)) :=
  ⟨by norm_num, c9_thm [(1 : ℚ)] 1 0 1 emptyCache (by norm_num)⟩

/-- The assert branch of poissonScoreBlame is reachable: an event at time 0
    makes both windowed probabilities 0, the reciprocals inf, their ratio
    NaN, and the call aborts. -/
lemma scoreBlame_nan_reachable :
    poissonScoreBlame [0] 1 = Except.error PyError.assertionError := by
  have hcdf : poissonCdf 1 0 = 1 := by
    unfold poissonCdf
    norm_num [poissonSum, Finset.sum_range_succ, Nat.factorial]
  have h0 : (1 : ℝ) - poissonCdf 1 0 = 0 := by
    rw [hcdf]
    ring
  have hraw : poissonScoreBlameRaw [0] 1 = [PyFloat.nan] := by
    unfold poissonScoreBlameRaw
    norm_num [List.range_succ, poissonProbList, hcdf, h0, pyDiv, pyMaxList]
  unfold poissonScoreBlame
  rw [if_neg (by norm_num), hraw, if_pos (by norm_num [isNan])]
